import Mathlib

/-!
Verification development for the SUB-tree frontend controller
(`src/frontend/static/js/sub.js`).

The JavaScript source is shallowly embedded as pure Lean functions:

* identifiers are modelled as `String`, because every comparison and
  object-key operation in the source goes through JavaScript string
  coercion (`String(id)`, property keys of `childMap`, `dataset.nodeId`);
* nullable JSON fields become `Option`;
* JavaScript numbers that the claims exercise are integers, so numeric
  fields use `Int` (wrapped in `JSNum` to keep the `NaN` value that
  `Number(...)` can produce);
* the DOM produced by `renderSubTree` is a rose forest of node wrappers;
* the recursion of `createNodeWrapper` over the `childMap` index can
  diverge on cyclic inputs, so the render is fuel-indexed: `none` models
  a JavaScript stack overflow, and divergence is `∀ fuel, … = none`;
* network calls are modelled by emitting a `Request` trace and taking the
  response outcome (`Fetch`) as an explicit parameter.
-/

namespace SubApp

/-- A JavaScript number as produced by `Number(...)`: either an integer
value (the fragment the program exercises) or `NaN`. -/
inductive JSNum where
  | nan : JSNum
  | int (n : Int) : JSNum
deriving DecidableEq, Repr

/-- Decimal rendering of a `JSNum`, as string coercion would produce. -/
def JSNum.toStr : JSNum → String
  | .nan => "NaN"
  | .int n => toString n

/-- Decimal value of a digit character list, `none` when empty or when a
non-digit occurs. -/
def digitsVal : List Char → Option Nat
  | [] => none
  | [c] => if c.isDigit then some (c.toNat - 48) else none
  | c :: cs =>
    match (if c.isDigit then some (c.toNat - 48) else none), digitsVal cs with
    | some d, some r => some (d * 10 ^ cs.length + r)
    | _, _ => none

/-- `Number(s)` restricted to optional-sign decimal integer literals.
The source only ever calls `Number` on non-empty form values; non-numeric
strings yield `NaN` exactly as in JavaScript. (Fractional, exponent and
whitespace forms of `Number` are outside what the program's claims
exercise and are conservatively mapped to `NaN`.) -/
def jsNumber (s : String) : JSNum :=
  match s.toList with
  | [] => .int 0
  | '-' :: rest =>
    match digitsVal rest with
    | some v => .int (-(v : Int))
    | none => .nan
  | cs =>
    match digitsVal cs with
    | some v => .int (v : Int)
    | none => .nan

/-- One item of a dataset, mirroring the JSON node objects consumed by
`sub.js` (fields read by `createNodeCard`, `renderSubTree`,
`updateDetailPanel`, `applyLocalChanges`, `applyAndPersistSelectedNode`). -/
structure Node where
  id : String
  parent_id : Option String
  order : Option Int
  name : String
  type : String
  vehicle : Option String
  material : Option String
  qty : Option JSNum
deriving DecidableEq, Repr

/-- A dataset: `{ sub_name, nodes }` as returned by the tree endpoints. -/
structure Tree where
  sub_name : String
  nodes : List Node
deriving DecidableEq, Repr

/-- The `childMap` key of a node: its `parent_id`, or the `"ROOT"`
sentinel when `parent_id` is `null`/`undefined`
(`renderSubTree`, `const pid = (n.parent_id === null || n.parent_id === undefined) ? "ROOT" : n.parent_id`). -/
def bucketKey (n : Node) : String := n.parent_id.getD "ROOT"

/-- The property names of `Object.prototype`.  `childMap` is a plain
object literal, so reads like `childMap[pid]` and `childMap[node.id]`
fall through to these inherited properties; all of their values are
truthy. -/
def protoKeys : List String :=
  ["constructor", "hasOwnProperty", "isPrototypeOf", "propertyIsEnumerable",
   "toLocaleString", "toString", "valueOf", "__proto__",
   "__defineGetter__", "__defineSetter__", "__lookupGetter__",
   "__lookupSetter__"]

def isProtoKey (k : String) : Bool := protoKeys.contains k

/-- The `Object.prototype` member names whose values pass the
`children.length > 0` test (function arity at least 1), so that
`children.forEach` is called on them and throws a `TypeError`.  The
zero-arity members (`toString`, `toLocaleString`, `valueOf`) and
`__proto__` (no `length`) fail the test and yield a childless wrapper
instead. -/
def crashingProtoId (k : String) : Bool :=
  ["constructor", "hasOwnProperty", "isPrototypeOf", "propertyIsEnumerable",
   "__defineGetter__", "__defineSetter__", "__lookupGetter__",
   "__lookupSetter__"].contains k

/-- The grouping loop completes.  For a key on the `Object.prototype`
chain, `!childMap[pid]` sees the truthy inherited value, the bucket
array is never created, and `childMap[pid].push(n)` throws a
`TypeError`; so the `childMap` build completes exactly when no node's
key is an `Object.prototype` property name. -/
def buildOk (nodes : List Node) : Bool :=
  nodes.all (fun n => !(isProtoKey (bucketKey n)))

/-- The `childMap[k]` bucket of a completed build: all nodes pushed for
own key `k`, in the order of the flat list.  (When some node's key lies
on the `Object.prototype` chain the build throws instead of producing
buckets — that case is `buildOk = false` and is handled by
`renderForest`.) -/
def bucketOf (nodes : List Node) (k : String) : List Node :=
  nodes.filter (fun n => bucketKey n = k)

/-- Effective sibling order: `a.order ?? 0`. -/
def effOrder (n : Node) : Int := n.order.getD 0

/-- Stable insertion of a node into a sibling list already sorted by
effective order: the node goes before the first element of
greater-or-equal effective order, so earlier-listed nodes keep priority
on ties. -/
def insertOrd (x : Node) : List Node → List Node
  | [] => [x]
  | y :: ys => if effOrder x ≤ effOrder y then x :: y :: ys else y :: insertOrd x ys

/-- The in-place bucket sort
`childMap[key].sort((a, b) => (a.order ?? 0) - (b.order ?? 0))`.
`Array.prototype.sort` with this comparator is exactly the stable
ascending sort by `order ?? 0`, which is what insertion sort computes. -/
def sortByOrder : List Node → List Node
  | [] => []
  | x :: xs => insertOrd x (sortByOrder xs)

/-- The sorted children bucket for key `k` used by `createNodeWrapper`. -/
def sortedBucket (nodes : List Node) (k : String) : List Node :=
  sortByOrder (bucketOf nodes k)

/-- A rendered `.node-card` element as built by `createNodeCard`. -/
structure Card where
  nodeId : String
  title : String
  metaText : String
  badgeText : String
  assy : Bool
  selected : Bool
deriving DecidableEq, Repr

/-- `createNodeCard`: card title (`node.name || "(이름 없음)"`), meta line,
badge (`node.type || "NODE"`), ASSY class, `dataset.nodeId = node.id`;
a fresh card never carries the `selected` class. -/
def mkCard (n : Node) : Card :=
  { nodeId := n.id
    title := if n.name = "" then "(이름 없음)" else n.name
    metaText := String.intercalate " / "
      ((match n.vehicle with | some v => if v = "" then [] else ["양산처: " ++ v] | none => []) ++
       (match n.material with | some m => if m = "" then [] else ["재질: " ++ m] | none => []) ++
       (match n.qty with | some q => ["수량: " ++ q.toStr ++ "EA"] | none => []))
    badgeText := if n.type = "" then "NODE" else n.type
    assy := n.type = "ASSY"
    selected := false }

mutual
/-- A `.tree-node` wrapper produced by `createNodeWrapper`: a row with the
node card, a depth class, and (when children exist) a nested children
container. -/
inductive DomTree where
  | mk (card : Card) (depth : Nat) (children : DomForest)
deriving DecidableEq, Repr

/-- A sequence of sibling wrappers (the content of a children container
or of the tree root container). -/
inductive DomForest where
  | nil : DomForest
  | cons (head : DomTree) (tail : DomForest) : DomForest
deriving DecidableEq, Repr
end

mutual
/-- All cards of a wrapper, in document order. -/
def cardsT : DomTree → List Card
  | .mk c _ ts => c :: cardsF ts
/-- All cards of a forest, in document order. -/
def cardsF : DomForest → List Card
  | .nil => []
  | .cons t ts => cardsT t ++ cardsF ts
end

/-- The `dataset.nodeId` values of all cards of a wrapper. -/
def idsT (t : DomTree) : List String := (cardsT t).map Card.nodeId

/-- The `dataset.nodeId` values of all cards of a forest. -/
def idsF (f : DomForest) : List String := (cardsF f).map Card.nodeId

/-- The recursion of `createNodeWrapper` over `childMap`, fuel-indexed.
`renderL nodes fuel cs d` renders the sibling list `cs` at depth `d`;
each node's children come from `childMap[node.id] || []` after the
bucket sort.  When `node.id` is an `Object.prototype` member of positive
arity, the lookup returns the truthy inherited function, the
`children.length > 0` test passes, and `children.forEach` throws — this
is the `crashingProtoId` guard.  (For the zero-arity members and
`__proto__` the length test fails and the wrapper is childless, which
under a completed build — where such buckets are necessarily empty —
coincides with the bucket lookup.)  One unit of fuel is consumed per
unfolding, so `none` models both that `TypeError` and the stack overflow
the recursion hits on cyclic `childMap` data; a run that completes in
JavaScript is `some` for all sufficiently large fuel. -/
def renderL (nodes : List Node) : Nat → List Node → Nat → Option DomForest
  | 0, _, _ => none
  | _ + 1, [], _ => some .nil
  | fuel + 1, c :: cs, d =>
    if crashingProtoId c.id then none
    else
      match renderL nodes fuel (sortedBucket nodes c.id) (d + 1),
            renderL nodes fuel cs d with
      | some ts, some rest => some (.cons (.mk (mkCard c) d ts) rest)
      | _, _ => none

/-- The whole rendered tree: group (which throws on `Object.prototype`
key collisions), then render `childMap["ROOT"]` at depth 0. -/
def renderForest (nodes : List Node) (fuel : Nat) : Option DomForest :=
  if buildOk nodes then renderL nodes fuel (sortedBucket nodes "ROOT") 0
  else none

/-- The recursive render terminates on this node list (for some stack
budget, the recursion completes instead of overflowing). -/
def renderTerminates (nodes : List Node) : Prop :=
  ∃ fuel, (renderForest nodes fuel).isSome

/-- The unique node a key resolves to: first list element whose `id`
equals the key (unique when ids are duplicate-free). -/
def nodeWithId (nodes : List Node) (k : String) : Option Node :=
  nodes.find? (fun y => y.id == k)

/-- The parent a node's `parent_id` resolves to via the `childMap` key. -/
def parentNode (nodes : List Node) (x : Node) : Option Node :=
  nodeWithId nodes (bucketKey x)

/-- Iterated parent resolution. -/
def iterP (nodes : List Node) : Nat → Node → Option Node
  | 0, x => some x
  | j + 1, x => (parentNode nodes x).bind (iterP nodes j)

/-! ### The bucket sort: permutation, sortedness, stability -/

theorem insertOrd_perm (x : Node) (l : List Node) :
    (insertOrd x l).Perm (x :: l) := by
  induction l with
  | nil => simp [insertOrd]
  | cons y ys ih =>
    by_cases h : effOrder x ≤ effOrder y
    · simp [insertOrd, h]
    · simp only [insertOrd, if_neg h]
      exact (ih.cons y).trans (List.Perm.swap x y ys)

theorem sortByOrder_perm (l : List Node) : (sortByOrder l).Perm l := by
  induction l with
  | nil => simp [sortByOrder]
  | cons x xs ih =>
    exact (insertOrd_perm x (sortByOrder xs)).trans (ih.cons x)

theorem mem_insertOrd {a x : Node} {l : List Node} :
    a ∈ insertOrd x l ↔ a = x ∨ a ∈ l := by
  rw [(insertOrd_perm x l).mem_iff]; simp

theorem insertOrd_pairwise (x : Node) {l : List Node}
    (h : l.Pairwise (fun a b => effOrder a ≤ effOrder b)) :
    (insertOrd x l).Pairwise (fun a b => effOrder a ≤ effOrder b) := by
  induction l with
  | nil => simp [insertOrd]
  | cons y ys ih =>
    rcases List.pairwise_cons.mp h with ⟨hy, hys⟩
    by_cases hxy : effOrder x ≤ effOrder y
    · rw [insertOrd, if_pos hxy]
      refine List.pairwise_cons.mpr ⟨?_, h⟩
      intro z hz
      rcases List.mem_cons.mp hz with rfl | hz
      · exact hxy
      · exact le_trans hxy (hy z hz)
    · rw [insertOrd, if_neg hxy]
      refine List.pairwise_cons.mpr ⟨?_, ih hys⟩
      intro z hz
      rcases mem_insertOrd.mp hz with rfl | hz
      · exact le_of_lt (lt_of_not_le hxy)
      · exact hy z hz

theorem sortByOrder_pairwise (l : List Node) :
    (sortByOrder l).Pairwise (fun a b => effOrder a ≤ effOrder b) := by
  induction l with
  | nil => simp [sortByOrder]
  | cons x xs ih => exact insertOrd_pairwise x ih

theorem filter_insertOrd (x : Node) (l : List Node) (v : Int) :
    (insertOrd x l).filter (fun n => effOrder n == v) =
      if effOrder x = v then x :: l.filter (fun n => effOrder n == v)
      else l.filter (fun n => effOrder n == v) := by
  induction l with
  | nil =>
    by_cases h : effOrder x = v <;> simp [insertOrd, List.filter_cons, beq_iff_eq, h]
  | cons y ys ih =>
    by_cases hxy : effOrder x ≤ effOrder y
    · rw [insertOrd, if_pos hxy]
      by_cases hx : effOrder x = v <;>
        by_cases hy : effOrder y = v <;>
          simp [List.filter_cons, beq_iff_eq, hx, hy]
    · rw [insertOrd, if_neg hxy]
      have hlt : effOrder y < effOrder x := lt_of_not_le hxy
      by_cases hx : effOrder x = v
      · have hy : ¬ effOrder y = v := by omega
        simp [List.filter_cons, beq_iff_eq, hx, hy, ih]
      · by_cases hy : effOrder y = v <;>
          simp [List.filter_cons, beq_iff_eq, hx, hy, ih]

theorem sortByOrder_stable (l : List Node) (v : Int) :
    (sortByOrder l).filter (fun n => effOrder n == v) =
      l.filter (fun n => effOrder n == v) := by
  induction l with
  | nil => rfl
  | cons x xs ih =>
    rw [sortByOrder, filter_insertOrd]
    by_cases hx : effOrder x = v <;>
      simp [List.filter_cons, beq_iff_eq, hx, ih]

/-- **C4.** Within every children bucket produced by the tree build,
siblings are sorted by effective `order` (missing treated as `0`)
ascending, and the siblings of every effective-order value keep exactly
their relative order from the original flat list: the bucket sort is
stable. -/
theorem C4_bucket_sort_stable_ascending (nodes : List Node) (k : String) :
    (sortedBucket nodes k).Pairwise (fun a b => effOrder a ≤ effOrder b) ∧
    ∀ v : Int, (sortedBucket nodes k).filter (fun n => effOrder n == v) =
      (bucketOf nodes k).filter (fun n => effOrder n == v) :=
  ⟨sortByOrder_pairwise _, fun v => sortByOrder_stable _ v⟩

/-! ### Basic facts about buckets and the rendered forest -/

@[simp] theorem mkCard_nodeId (n : Node) : (mkCard n).nodeId = n.id := rfl

@[simp] theorem cardsT_mk (c : Card) (d : Nat) (ts : DomForest) :
    cardsT (.mk c d ts) = c :: cardsF ts := by simp [cardsT]

@[simp] theorem cardsF_nil : cardsF .nil = [] := by simp [cardsF]

@[simp] theorem cardsF_cons (t : DomTree) (ts : DomForest) :
    cardsF (.cons t ts) = cardsT t ++ cardsF ts := by simp [cardsF]

theorem mem_bucketOf {nodes : List Node} {k : String} {n : Node} :
    n ∈ bucketOf nodes k ↔ n ∈ nodes ∧ bucketKey n = k := by
  simp [bucketOf, List.mem_filter]

theorem mem_sortedBucket {nodes : List Node} {k : String} {n : Node} :
    n ∈ sortedBucket nodes k ↔ n ∈ nodes ∧ bucketKey n = k := by
  rw [sortedBucket, (sortByOrder_perm _).mem_iff, mem_bucketOf]

theorem sortedBucket_subset (nodes : List Node) (k : String) :
    sortedBucket nodes k ⊆ nodes :=
  fun _ h => (mem_sortedBucket.mp h).1

/-- Identifiers are injective on the node list when the dataset invariant
(`id` unique across the dataset) holds. -/
theorem id_inj {nodes : List Node} (HN : (nodes.map Node.id).Nodup)
    {a b : Node} (ha : a ∈ nodes) (hb : b ∈ nodes) (h : a.id = b.id) : a = b :=
  List.inj_on_of_nodup_map HN ha hb h

/-- With duplicate-free ids, key lookup finds exactly the member node. -/
theorem nodeWithId_eq_self {nodes : List Node} (HN : (nodes.map Node.id).Nodup)
    {c : Node} (hc : c ∈ nodes) : nodeWithId nodes c.id = some c := by
  rcases h : nodeWithId nodes c.id with _ | y
  · exact absurd (List.find?_eq_none.mp h c hc) (by simp)
  · have hmem := List.mem_of_find?_eq_some h
    have hid : y.id = c.id := by simpa using List.find?_some h
    exact congrArg some (id_inj HN hmem hc hid)

theorem iterP_snoc {nodes : List Node} {j : Nat} {x c m : Node}
    (h1 : iterP nodes j x = some c) (h2 : parentNode nodes c = some m) :
    iterP nodes (j + 1) x = some m := by
  induction j generalizing x with
  | zero =>
    simp only [iterP] at h1
    injection h1 with hxc
    subst hxc
    simp [iterP, h2]
  | succ j ih =>
    simp only [iterP] at h1 ⊢
    rcases hp : parentNode nodes x with _ | y
    · simp [hp] at h1
    · simp only [hp, Option.bind_some] at h1 ⊢
      exact ih h1

/-- Inversion of a successful render of a non-empty sibling list. -/
theorem renderL_cons_some {nodes : List Node} {f : Nat} {c : Node}
    {cs : List Node} {d : Nat} {r : DomForest}
    (h : renderL nodes (f + 1) (c :: cs) d = some r) :
    ∃ ts rest, renderL nodes f (sortedBucket nodes c.id) (d + 1) = some ts ∧
      renderL nodes f cs d = some rest ∧
      r = .cons (.mk (mkCard c) d ts) rest := by
  rcases hg : crashingProtoId c.id with _ | _
  · rcases h1 : renderL nodes f (sortedBucket nodes c.id) (d + 1) with _ | ts <;>
      rcases h2 : renderL nodes f cs d with _ | rest <;>
        simp only [renderL, hg, Bool.false_eq_true, if_false, h1, h2] at h <;>
      first
        | exact Option.noConfusion h
        | exact ⟨ts, rest, rfl, rfl, (Option.some.inj h).symm⟩
  · simp only [renderL, hg, if_true] at h
    exact Option.noConfusion h

theorem renderForest_some {nodes : List Node} {fuel : Nat} {r : DomForest} :
    renderForest nodes fuel = some r ↔
      buildOk nodes = true ∧
      renderL nodes fuel (sortedBucket nodes "ROOT") 0 = some r := by
  rcases hb : buildOk nodes with _ | _ <;> simp [renderForest, hb]

theorem renderL_nil_some {nodes : List Node} {f : Nat} {d : Nat} {r : DomForest}
    (h : renderL nodes (f + 1) [] d = some r) : r = .nil := by
  simp only [renderL] at h
  exact (Option.some.inj h).symm

/-- The cards produced by a successful render do not depend on the fuel or
the depth at which it ran: any two successful renders of the same sibling
list produce the same card list. -/
theorem renderL_cards_det {nodes : List Node} :
    ∀ f1, ∀ {f2 cs d1 d2 r1 r2},
      renderL nodes f1 cs d1 = some r1 → renderL nodes f2 cs d2 = some r2 →
      cardsF r1 = cardsF r2 := by
  intro f1
  induction f1 with
  | zero => intro f2 cs d1 d2 r1 r2 h1; simp [renderL] at h1
  | succ g ih =>
    intro f2 cs d1 d2 r1 r2 h1 h2
    match f2, cs with
    | 0, _ => simp [renderL] at h2
    | h + 1, [] =>
      rw [renderL_nil_some h1, renderL_nil_some h2]
    | h + 1, c :: cs' =>
      obtain ⟨ts1, rest1, ht1, hr1, rfl⟩ := renderL_cons_some h1
      obtain ⟨ts2, rest2, ht2, hr2, rfl⟩ := renderL_cons_some h2
      simp only [cardsF_cons, cardsT_mk]
      rw [ih ht1 ht2, ih hr1 hr2]

theorem count_idsF_cons (c : Node) (d : Nat) (ts rest : DomForest) (i : String) :
    (idsF (.cons (.mk (mkCard c) d ts) rest)).count i =
      (if c.id = i then 1 else 0) + (idsF ts).count i + (idsF rest).count i := by
  by_cases h : c.id = i <;>
    simp [idsF, List.count_cons, List.count_append, h] <;> omega

theorem length_cardsF_cons (c : Node) (d : Nat) (ts rest : DomForest) :
    (cardsF (.cons (.mk (mkCard c) d ts) rest)).length =
      1 + (cardsF ts).length + (cardsF rest).length := by
  simp; omega

/-- Every id occurring in a successful render belongs to a node of the
flat list, and that node's own children bucket has a successful
sub-render strictly inside the forest. -/
theorem renderL_occ {nodes : List Node} :
    ∀ f, ∀ {cs : List Node} {d : Nat} {r : DomForest},
      renderL nodes f cs d = some r → cs ⊆ nodes →
      ∀ {i : String}, 0 < (idsF r).count i →
      ∃ x fz dz ts, x ∈ nodes ∧ x.id = i ∧
        renderL nodes fz (sortedBucket nodes x.id) dz = some ts ∧
        (cardsF ts).length + 1 ≤ (cardsF r).length := by
  intro f
  induction f with
  | zero => intro cs d r h; simp [renderL] at h
  | succ g ih =>
    intro cs d r h hsub i hcnt
    match cs with
    | [] =>
      rw [renderL_nil_some h] at hcnt
      simp [idsF] at hcnt
    | c :: cs' =>
      obtain ⟨ts, rest, hts, hrest, rfl⟩ := renderL_cons_some h
      rw [count_idsF_cons] at hcnt
      have hlen := length_cardsF_cons c d ts rest
      by_cases hci : c.id = i
      · exact ⟨c, g, d + 1, ts, hsub (List.mem_cons_self c cs'), hci, hts, by omega⟩
      · rw [if_neg hci] at hcnt
        by_cases h1 : 0 < (idsF ts).count i
        · obtain ⟨x, fz, dz, ts2, hx, hxi, hts2, hb⟩ :=
            ih hts (sortedBucket_subset nodes c.id) h1
          exact ⟨x, fz, dz, ts2, hx, hxi, hts2, by omega⟩
        · have h2 : 0 < (idsF rest).count i := by omega
          obtain ⟨x, fz, dz, ts2, hx, hxi, hts2, hb⟩ :=
            ih hrest (fun z hz => hsub (List.mem_cons_of_mem c hz)) h2
          exact ⟨x, fz, dz, ts2, hx, hxi, hts2, by omega⟩

/-- In a successful render of the bucket of key `k`, no card with id `k`
occurs anywhere: otherwise its own children forest would be a render of
the same bucket, strictly smaller than itself. -/
theorem renderL_count_key_zero {nodes : List Node} {f : Nat} {k : String}
    {d : Nat} {r : DomForest}
    (h : renderL nodes f (sortedBucket nodes k) d = some r) :
    (idsF r).count k = 0 := by
  by_contra hc
  have hpos : 0 < (idsF r).count k := Nat.pos_of_ne_zero hc
  obtain ⟨x, fz, dz, ts, _, hxi, hts, hb⟩ :=
    renderL_occ f h (sortedBucket_subset nodes k) hpos
  rw [hxi] at hts
  have hdet := renderL_cards_det fz hts h
  have hlen : (cardsF ts).length = (cardsF r).length := by rw [hdet]
  omega

/-- Ancestor chain of an occurrence: if a node's id occurs in a
successful render of a sibling list, then iterated parent resolution
leads from that node to a member of the sibling list, and every node on
the chain also occurs in the render.  (Requires duplicate-free ids so
that parent resolution is unambiguous.) -/
theorem renderL_chain {nodes : List Node} (HN : (nodes.map Node.id).Nodup) :
    ∀ f, ∀ {cs : List Node} {d : Nat} {r : DomForest},
      renderL nodes f cs d = some r → cs ⊆ nodes →
      ∀ {x : Node}, x ∈ nodes → 0 < (idsF r).count x.id →
      ∃ c ∈ cs, ∃ j, iterP nodes j x = some c ∧
        ∀ l ≤ j, ∃ z, iterP nodes l x = some z ∧ 0 < (idsF r).count z.id := by
  intro f
  induction f with
  | zero => intro cs d r h; simp [renderL] at h
  | succ g ih =>
    intro cs d r h hsub x hx hcnt
    match cs with
    | [] =>
      rw [renderL_nil_some h] at hcnt
      simp [idsF] at hcnt
    | c :: cs' =>
      obtain ⟨ts, rest, hts, hrest, rfl⟩ := renderL_cons_some h
      have hcount := count_idsF_cons c d ts rest x.id
      have hc : c ∈ nodes := hsub (List.mem_cons_self c cs')
      by_cases hci : c.id = x.id
      · have hcx : x = c := id_inj HN hx hc hci.symm
        refine ⟨c, List.mem_cons_self c cs', 0, by simp [iterP, hcx], ?_⟩
        intro l hl
        interval_cases l
        exact ⟨x, by simp [iterP], hcnt⟩
      · by_cases h1 : 0 < (idsF ts).count x.id
        · obtain ⟨cm, hcm, j, hj, hall⟩ :=
            ih hts (sortedBucket_subset nodes c.id) hx h1
          have hkey : bucketKey cm = c.id := (mem_sortedBucket.mp hcm).2
          have hpar : parentNode nodes cm = some c := by
            rw [parentNode, hkey]
            exact nodeWithId_eq_self HN hc
          refine ⟨c, List.mem_cons_self c cs', j + 1, iterP_snoc hj hpar, ?_⟩
          intro l hl
          rcases Nat.lt_or_ge l (j + 1) with hlt | hge
          · obtain ⟨z, hz, hzc⟩ := hall l (by omega)
            refine ⟨z, hz, ?_⟩
            rw [count_idsF_cons]
            omega
          · have : l = j + 1 := by omega
            subst this
            refine ⟨c, iterP_snoc hj hpar, ?_⟩
            rw [count_idsF_cons, if_pos rfl]
            omega
        · rw [if_neg hci] at hcount
          have h2 : 0 < (idsF rest).count x.id := by omega
          obtain ⟨cm, hcm, j, hj, hall⟩ :=
            ih hrest (fun z hz => hsub (List.mem_cons_of_mem c hz)) hx h2
          refine ⟨cm, List.mem_cons_of_mem c hcm, j, hj, ?_⟩
          intro l hl
          obtain ⟨z, hz, hzc⟩ := hall l hl
          refine ⟨z, hz, ?_⟩
          rw [count_idsF_cons]
          omega

theorem parentNode_id {nodes : List Node} {x z : Node}
    (h : parentNode nodes x = some z) : z.id = bucketKey x := by
  have := List.find?_some h
  simpa using this

theorem iterP_one (nodes : List Node) (x : Node) :
    iterP nodes 1 x = parentNode nodes x := by
  cases hp : parentNode nodes x <;> simp [iterP, hp]

theorem sortedBucket_ids_nodup {nodes : List Node}
    (HN : (nodes.map Node.id).Nodup) (k : String) :
    ((sortedBucket nodes k).map Node.id).Nodup := by
  have h1 : ((bucketOf nodes k).map Node.id).Sublist (nodes.map Node.id) :=
    (List.filter_sublist nodes).map Node.id
  exact (((sortByOrder_perm (bucketOf nodes k)).map Node.id).nodup_iff).mpr
    (h1.nodup HN)

/-- **Main rendering invariant**: in a successful render of a children
bucket, every id occurs at most once — no node is ever rendered twice. -/
theorem renderL_count_le_one {nodes : List Node}
    (HN : (nodes.map Node.id).Nodup) :
    ∀ f : Nat, ∀ {k : String} {d : Nat} {r : DomForest},
      renderL nodes f (sortedBucket nodes k) d = some r →
      ∀ i, (idsF r).count i ≤ 1 := by
  intro f
  induction f using Nat.strong_induction_on with
  | _ f IH =>
    intro k d r hr
    suffices AUX : ∀ g, g ≤ f → ∀ (cs : List Node) (d' : Nat) (r' : DomForest),
        renderL nodes g cs d' = some r' →
        (∀ c ∈ cs, c ∈ nodes ∧ bucketKey c = k) →
        (cs.map Node.id).Nodup →
        (∀ j, (idsF r').count j ≤ (idsF r).count j) →
        ∀ i, (idsF r').count i ≤ 1 by
      intro i
      refine AUX f le_rfl _ d r hr ?_ (sortedBucket_ids_nodup HN k)
        (fun j => le_rfl) i
      intro c hc
      exact ⟨(mem_sortedBucket.mp hc).1, (mem_sortedBucket.mp hc).2⟩
    intro g
    induction g with
    | zero =>
      intro _ cs d' r' h
      simp [renderL] at h
    | succ g ihg =>
      intro hgf cs d' r' h hprops hnodup hemb i
      match cs with
      | [] =>
        rw [renderL_nil_some h]
        simp [idsF]
      | c :: cs' =>
        obtain ⟨ts, rest, hts, hrest, rfl⟩ := renderL_cons_some h
        obtain ⟨hcn, hck⟩ := hprops c (List.mem_cons_self c cs')
        have hnd : c.id ∉ cs'.map Node.id ∧ (cs'.map Node.id).Nodup :=
          List.nodup_cons.mp (by simpa using hnodup)
        have hsubrest : ∀ z ∈ cs', z ∈ nodes :=
          fun z hz => (hprops z (List.mem_cons_of_mem c hz)).1
        have hembts : ∀ j, (idsF ts).count j ≤ (idsF r).count j := by
          intro j
          have := hemb j
          rw [count_idsF_cons] at this
          omega
        have hembrest : ∀ j, (idsF rest).count j ≤ (idsF r).count j := by
          intro j
          have := hemb j
          rw [count_idsF_cons] at this
          omega
        have hts1 : ∀ i', (idsF ts).count i' ≤ 1 :=
          fun i' => IH g (by omega) hts i'
        have hrest1 : ∀ i', (idsF rest).count i' ≤ 1 :=
          fun i' => ihg (by omega) cs' d' rest hrest
            (fun z hz => hprops z (List.mem_cons_of_mem c hz)) hnd.2 hembrest i'
        -- the sibling `c` never occurs in the rest of the forest
        have SB : ¬ 0 < (idsF rest).count c.id := by
          intro hb
          obtain ⟨c', hc', j, hj, hall⟩ := renderL_chain HN g hrest hsubrest hcn hb
          match j with
          | 0 =>
            simp only [iterP] at hj
            obtain rfl := Option.some.inj hj
            exact hnd.1 (List.mem_map_of_mem Node.id hc')
          | j' + 1 =>
            obtain ⟨z, hz, hzc⟩ := hall 1 (by omega)
            rw [iterP_one] at hz
            have hzk : z.id = k := by rw [parentNode_id hz, hck]
            rw [hzk] at hzc
            have hkr : 0 < (idsF r).count k := lt_of_lt_of_le hzc (hembrest k)
            have := renderL_count_key_zero hr
            omega
        rw [count_idsF_cons]
        by_cases hci : c.id = i
        · rw [if_pos hci]
          have ha : (idsF ts).count i = 0 := by
            rw [← hci]
            exact renderL_count_key_zero hts
          have hb : (idsF rest).count i = 0 := by
            by_contra hb0
            exact SB (hci ▸ Nat.pos_of_ne_zero hb0)
          omega
        · rw [if_neg hci]
          by_contra hcon
          push_neg at hcon
          have ha : 0 < (idsF ts).count i := by
            have := hrest1 i
            omega
          have hb : 0 < (idsF rest).count i := by
            have := hts1 i
            omega
          obtain ⟨x, _, _, _, hxn, hxi, _, _⟩ :=
            renderL_occ g hts (sortedBucket_subset nodes c.id) ha
          rw [← hxi] at ha hb
          obtain ⟨cm, hcm, j1, hj1, hall1⟩ :=
            renderL_chain HN g hts (sortedBucket_subset nodes c.id) hxn ha
          have hpar : parentNode nodes cm = some c := by
            rw [parentNode, (mem_sortedBucket.mp hcm).2]
            exact nodeWithId_eq_self HN hcn
          have hj1' : iterP nodes (j1 + 1) x = some c := iterP_snoc hj1 hpar
          obtain ⟨c', hc', j2, hj2, hall2⟩ :=
            renderL_chain HN g hrest hsubrest hxn hb
          rcases lt_trichotomy (j1 + 1) j2 with hlt | heq | hgt
          · obtain ⟨z, hz, hzc⟩ := hall2 (j1 + 1) (by omega)
            rw [hj1'] at hz
            obtain rfl := Option.some.inj hz
            exact SB hzc
          · rw [heq, hj2] at hj1'
            obtain rfl := (Option.some.inj hj1').symm
            exact hnd.1 (List.mem_map_of_mem Node.id hc')
          · obtain ⟨z, hz, hzc⟩ := hall1 j2 (by omega)
            rw [hj2] at hz
            obtain rfl := Option.some.inj hz
            have hc'n : c' ∈ nodes := (hprops c' (List.mem_cons_of_mem c hc')).1
            have hc'k : bucketKey c' = k := (hprops c' (List.mem_cons_of_mem c hc')).2
            obtain ⟨cm2, hcm2, j3, hj3, hall3⟩ :=
              renderL_chain HN g hts (sortedBucket_subset nodes c.id) hc'n hzc
            match j3 with
            | 0 =>
              simp only [iterP] at hj3
              obtain rfl := Option.some.inj hj3
              have h1 : bucketKey c' = c.id := (mem_sortedBucket.mp hcm2).2
              have hcidk : c.id = k := h1.symm.trans hc'k
              have hembk := hemb k
              rw [count_idsF_cons, if_pos hcidk] at hembk
              have := renderL_count_key_zero hr
              omega
            | j3' + 1 =>
              obtain ⟨z', hz', hz'c⟩ := hall3 1 (by omega)
              rw [iterP_one] at hz'
              have hzk : z'.id = k := by rw [parentNode_id hz', hc'k]
              rw [hzk] at hz'c
              have hkr : 0 < (idsF r).count k := lt_of_lt_of_le hz'c (hembts k)
              have := renderL_count_key_zero hr
              omega

/-! ### Termination of the recursive render -/

/-- The bucket key of the current recursion level: `"ROOT"` at top level,
otherwise the id of the deepest ancestor. -/
def headKey : List Node → String
  | [] => "ROOT"
  | a :: _ => a.id

/-- Nodes not yet spent by the recursion: neither in the root bucket nor
in the bucket of any ancestor on the current recursion path. -/
def freeCount (nodes anc : List Node) : Nat :=
  nodes.countP (fun z =>
    !(decide (bucketKey z = "ROOT") || anc.any (fun a => decide (bucketKey z = a.id))))

theorem headKey_mem (anc : List Node) :
    headKey anc = "ROOT" ∨ headKey anc ∈ anc.map Node.id := by
  match anc with
  | [] => exact Or.inl rfl
  | a :: anc' => exact Or.inr (by simp [headKey])

theorem countP_and_not_add {α : Type} (l : List α) (p q : α → Bool) :
    l.countP (fun a => p a && !q a) + l.countP (fun a => p a && q a) = l.countP p := by
  induction l with
  | nil => simp
  | cons x xs ih =>
    cases hp : p x <;> cases hq : q x <;>
      simp [List.countP_cons, hp, hq] <;> omega

theorem countP_eq_of_forall {α : Type} {l : List α} {p q : α → Bool}
    (h : ∀ a ∈ l, p a = q a) : l.countP p = l.countP q := by
  induction l with
  | nil => rfl
  | cons x xs ih =>
    rw [List.countP_cons, List.countP_cons, h x (List.mem_cons_self x xs),
      ih (fun a ha => h a (List.mem_cons_of_mem x ha))]

theorem length_sortedBucket (nodes : List Node) (k : String) :
    (sortedBucket nodes k).length = (bucketOf nodes k).length :=
  (sortByOrder_perm (bucketOf nodes k)).length_eq

theorem bool_not_or_split (r b a : Bool) :
    (!(r || (b || a))) = ((!(r || a)) && !b) := by
  cases r <;> cases b <;> cases a <;> rfl

/-- Spending a node on descent: the nodes freed up at ancestor list
`c :: anc` are those at `anc` minus the whole bucket of `c.id`, provided
that bucket was still free. -/
theorem freeCount_cons {nodes anc : List Node} {c : Node}
    (hroot : c.id ≠ "ROOT")
    (hanc : ∀ a ∈ anc, a.id ≠ c.id) :
    freeCount nodes (c :: anc) + (bucketOf nodes c.id).length =
      freeCount nodes anc := by
  have hlen : (bucketOf nodes c.id).length =
      nodes.countP (fun z => decide (bucketKey z = c.id)) := by
    rw [bucketOf, ← List.countP_eq_length_filter]
  rw [hlen]
  have hsplit := countP_and_not_add nodes
    (fun z => !(decide (bucketKey z = "ROOT") ||
      anc.any (fun a => decide (bucketKey z = a.id))))
    (fun z => decide (bucketKey z = c.id))
  rw [freeCount, freeCount]
  have h1 : nodes.countP (fun z =>
      !(decide (bucketKey z = "ROOT") ||
        (c :: anc).any (fun a => decide (bucketKey z = a.id)))) =
      nodes.countP (fun z =>
        (!(decide (bucketKey z = "ROOT") ||
          anc.any (fun a => decide (bucketKey z = a.id)))) &&
        !(decide (bucketKey z = c.id))) := by
    refine countP_eq_of_forall (fun z _ => ?_)
    rw [List.any_cons]
    exact bool_not_or_split _ _ _
  have h2 : nodes.countP (fun z =>
      (!(decide (bucketKey z = "ROOT") ||
        anc.any (fun a => decide (bucketKey z = a.id)))) &&
      (decide (bucketKey z = c.id))) =
      nodes.countP (fun z => decide (bucketKey z = c.id)) := by
    refine countP_eq_of_forall (fun z _ => ?_)
    by_cases hz : bucketKey z = c.id
    · have hzr : ¬ bucketKey z = "ROOT" := by rw [hz]; exact hroot
      have hza : anc.any (fun a => decide (bucketKey z = a.id)) = false := by
        rw [List.any_eq_false]
        intro a ha
        simp only [decide_eq_true_eq, hz]
        exact fun hcontra => hanc a ha hcontra.symm
      simp only [hz, hzr, hza]
      simp
      exact ⟨hroot, fun x hx h => hanc x hx h.symm⟩
    · simp [hz]
  rw [h1, ← h2]
  exact hsplit

/-- Fuel adequacy: with duplicate-free ids and no node whose id collides
with the `"ROOT"` sentinel, the recursion cannot run out of a budget of
one unit per sibling slot plus two per still-free node. -/
theorem renderL_ne_none {nodes : List Node}
    (HN : (nodes.map Node.id).Nodup)
    (HR : ∀ n ∈ nodes, n.id ≠ "ROOT")
    (HP : ∀ n ∈ nodes, crashingProtoId n.id = false) :
    ∀ fuel : Nat, ∀ {anc cs : List Node} {d : Nat},
      anc ⊆ nodes →
      (∀ a ∈ anc, bucketKey a = "ROOT" ∨ bucketKey a ∈ anc.map Node.id) →
      (∀ c ∈ cs, c ∈ bucketOf nodes (headKey anc)) →
      (∀ c ∈ cs, c.id ∉ anc.map Node.id) →
      1 + cs.length + 2 * freeCount nodes anc ≤ fuel →
      renderL nodes fuel cs d ≠ none := by
  intro fuel
  induction fuel using Nat.strong_induction_on with
  | _ fuel IH =>
    intro anc cs d hanc hancinv hcs hfresh hfuel
    match fuel, cs with
    | 0, _ => omega
    | f + 1, [] => simp [renderL]
    | f + 1, c :: cs' =>
      have hcb := hcs c (List.mem_cons_self c cs')
      have hcn : c ∈ nodes := (mem_bucketOf.mp hcb).1
      have hckey : bucketKey c = headKey anc := (mem_bucketOf.mp hcb).2
      have hcfresh := hfresh c (List.mem_cons_self c cs')
      -- the id of `c` is fresh relative to the extended ancestor list
      have hcid_ne_anc : ∀ a ∈ anc, a.id ≠ c.id := by
        intro a ha heq
        exact hcfresh (heq ▸ List.mem_map_of_mem Node.id ha)
      have hcroot : c.id ≠ "ROOT" := HR c hcn
      -- bucket of c.id was free, so the potential strictly drops
      have hfree := @freeCount_cons nodes anc c hcroot hcid_ne_anc
      -- invariants for the descent into the children bucket
      have hanc' : (c :: anc) ⊆ nodes := by
        intro z hz
        rcases List.mem_cons.mp hz with rfl | hz
        · exact hcn
        · exact hanc hz
      have hancinv' : ∀ a ∈ c :: anc,
          bucketKey a = "ROOT" ∨ bucketKey a ∈ (c :: anc).map Node.id := by
        intro a ha
        rcases List.mem_cons.mp ha with rfl | ha
        · rw [hckey]
          rcases headKey_mem anc with h | h
          · exact Or.inl h
          · exact Or.inr (by simp [h])
        · rcases hancinv a ha with h | h
          · exact Or.inl h
          · exact Or.inr (by simp [h])
      have hcs' : ∀ z ∈ sortedBucket nodes c.id,
          z ∈ bucketOf nodes (headKey (c :: anc)) := by
        intro z hz
        exact mem_bucketOf.mpr ⟨(mem_sortedBucket.mp hz).1, (mem_sortedBucket.mp hz).2⟩
      have hfresh' : ∀ z ∈ sortedBucket nodes c.id,
          z.id ∉ (c :: anc).map Node.id := by
        intro z hz hzin
        have hzn : z ∈ nodes := (mem_sortedBucket.mp hz).1
        have hkeyz : bucketKey z = c.id := (mem_sortedBucket.mp hz).2
        rcases List.mem_cons.mp (by simpa using hzin :
            z.id ∈ c.id :: anc.map Node.id) with hzc | hza
        · -- z.id = c.id: then c would sit in its own bucket
          have hzeq : z = c := id_inj HN hzn hcn hzc
          subst hzeq
          rw [hckey] at hkeyz
          rcases headKey_mem anc with h | h
          · exact hcroot (hkeyz ▸ h)
          · exact hcfresh (hkeyz ▸ h)
        · -- z.id is an ancestor id: that ancestor would sit in the bucket of c
          rcases List.mem_map.mp hza with ⟨a, ha, haid⟩
          have hzan : a ∈ nodes := hanc ha
          have hzeq : z = a := id_inj HN hzn hzan haid.symm
          subst hzeq
          rcases hancinv z ha with h | h
          · rw [hkeyz] at h
            exact hcroot h
          · rw [hkeyz] at h
            exact hcfresh h
      -- sub-calls succeed
      have hA : renderL nodes f (sortedBucket nodes c.id) (d + 1) ≠ none := by
        refine IH f (by omega) hanc' hancinv' hcs' hfresh' ?_
        rw [length_sortedBucket]
        simp only [List.length_cons] at hfuel
        omega
      have hB : renderL nodes f cs' d ≠ none := by
        refine IH f (by omega) hanc hancinv
          (fun z hz => hcs z (List.mem_cons_of_mem c hz))
          (fun z hz => hfresh z (List.mem_cons_of_mem c hz)) ?_
        simp only [List.length_cons] at hfuel
        omega
      rcases Option.ne_none_iff_exists'.mp hA with ⟨ts, hts⟩
      rcases Option.ne_none_iff_exists'.mp hB with ⟨rest, hrest⟩
      simp [renderL, hts, hrest, HP c hcn]

/-- With duplicate-free ids, none of which is the string `"ROOT"` or an
`Object.prototype` member of positive arity, and with a grouping that
completes, the recursive render terminates (a stack budget of `3·n + 1`
suffices). -/
theorem renderTerminates_of_no_root_id {nodes : List Node}
    (HN : (nodes.map Node.id).Nodup)
    (HR : ∀ n ∈ nodes, n.id ≠ "ROOT")
    (HP : ∀ n ∈ nodes, crashingProtoId n.id = false)
    (HB : buildOk nodes = true) :
    renderTerminates nodes := by
  refine ⟨3 * nodes.length + 1, ?_⟩
  rw [renderForest, if_pos HB]
  have h := @renderL_ne_none nodes HN HR HP (3 * nodes.length + 1)
    [] (sortedBucket nodes "ROOT") 0
    (List.nil_subset nodes)
    (by intro a ha; cases ha)
    (by
      intro c hc
      exact mem_bucketOf.mpr ⟨(mem_sortedBucket.mp hc).1, (mem_sortedBucket.mp hc).2⟩)
    (by intro c _ hc; simp at hc)
    (by
      have h1 : (sortedBucket nodes "ROOT").length ≤ nodes.length := by
        rw [length_sortedBucket, bucketOf, ← List.countP_eq_length_filter]
        exact List.countP_le_length _
      have h2 : freeCount nodes [] ≤ nodes.length := List.countP_le_length _
      omega)
  rcases Option.ne_none_iff_exists'.mp h with ⟨r, hr⟩
  rw [hr]
  rfl

/-- A node whose `childMap` key resolves to no id in the list never
occurs in the render of any sibling list that avoids its id. -/
theorem renderL_orphan_excluded {nodes : List Node}
    (HN : (nodes.map Node.id).Nodup) {n : Node} (hn : n ∈ nodes)
    (hkey : bucketKey n ∉ nodes.map Node.id) :
    ∀ f, ∀ {cs : List Node} {d : Nat} {r : DomForest},
      renderL nodes f cs d = some r → cs ⊆ nodes →
      (∀ c ∈ cs, c.id ≠ n.id) → (idsF r).count n.id = 0 := by
  intro f
  induction f with
  | zero => intro cs d r h; simp [renderL] at h
  | succ g ih =>
    intro cs d r h hsub havoid
    match cs with
    | [] =>
      rw [renderL_nil_some h]
      simp [idsF]
    | c :: cs' =>
      obtain ⟨ts, rest, hts, hrest, rfl⟩ := renderL_cons_some h
      rw [count_idsF_cons, if_neg (havoid c (List.mem_cons_self c cs'))]
      have hcn : c ∈ nodes := hsub (List.mem_cons_self c cs')
      have h1 : (idsF ts).count n.id = 0 := by
        refine ih hts (sortedBucket_subset nodes c.id) ?_
        intro z hz hzid
        have hzn : z ∈ nodes := (mem_sortedBucket.mp hz).1
        have : z = n := id_inj HN hzn hn hzid
        subst this
        exact hkey ((mem_sortedBucket.mp hz).2 ▸ List.mem_map_of_mem Node.id hcn)
      have h2 : (idsF rest).count n.id = 0 :=
        ih hrest (fun z hz => hsub (List.mem_cons_of_mem c hz))
          (fun z hz => havoid z (List.mem_cons_of_mem c hz))
      omega

/-! ### Claim C1 and claim C7 -/

/-- **C1 (amended).** With duplicate-free ids: when some node's children
key (its `parent_id`, or the `"ROOT"` sentinel for `null`/`undefined`)
is an `Object.prototype` property name, the grouping throws and nothing
is rendered at all; otherwise every node lands in exactly one `childMap`
bucket; in any completed render no node appears more than once; and a
node whose `parent_id` resolves to no id in the list never appears in
any node's children bucket and — as long as that unresolved `parent_id`
is not the literal sentinel string `"ROOT"` (rendered as a root) — it
does not appear in the rendered tree at all. -/
theorem C1_bucket_partition_and_no_duplicates (nodes : List Node)
    (HN : (nodes.map Node.id).Nodup) :
    (buildOk nodes = false → ∀ fuel, renderForest nodes fuel = none) ∧
    (buildOk nodes = true →
      ∀ n ∈ nodes, n ∈ bucketOf nodes (bucketKey n) ∧
        ∀ k, n ∈ bucketOf nodes k → k = bucketKey n) ∧
    (∀ fuel r, renderForest nodes fuel = some r →
      ∀ i, (idsF r).count i ≤ 1) ∧
    (∀ n ∈ nodes, ∀ p, n.parent_id = some p → p ∉ nodes.map Node.id →
      (∀ m ∈ nodes, n ∉ bucketOf nodes m.id) ∧
      (p ≠ "ROOT" → ∀ fuel r, renderForest nodes fuel = some r →
        (idsF r).count n.id = 0)) := by
  refine ⟨?_, ?_, ?_, ?_⟩
  · intro hb fuel
    simp [renderForest, hb]
  · intro _ n hn
    exact ⟨mem_bucketOf.mpr ⟨hn, rfl⟩, fun k hk => ((mem_bucketOf.mp hk).2).symm⟩
  · intro fuel r hr i
    exact renderL_count_le_one HN fuel (renderForest_some.mp hr).2 i
  · intro n hn p hp hpres
    have hkeyn : bucketKey n = p := by rw [bucketKey, hp]; rfl
    refine ⟨?_, ?_⟩
    · intro m hm hmem
      have : bucketKey n = m.id := (mem_bucketOf.mp hmem).2
      rw [hkeyn] at this
      exact hpres (this ▸ List.mem_map_of_mem Node.id hm)
    · intro hproot fuel r hr
      refine renderL_orphan_excluded HN hn (hkeyn ▸ hpres) fuel
        (renderForest_some.mp hr).2 (sortedBucket_subset nodes "ROOT") ?_
      intro c hc hcid
      have hcn : c ∈ nodes := (mem_sortedBucket.mp hc).1
      have : c = n := id_inj HN hcn hn hcid
      subst this
      exact hproot (hkeyn ▸ (mem_sortedBucket.mp hc).2)

/-- A three-node list exercising C1: a root, a child, and an orphan whose
`parent_id` resolves to nothing. -/
def c1Nodes : List Node :=
  [{ id := "1", parent_id := none, order := none, name := "a", type := "ASSY",
     vehicle := none, material := none, qty := none },
   { id := "2", parent_id := some "1", order := none, name := "b", type := "",
     vehicle := none, material := none, qty := none },
   { id := "3", parent_id := some "zzz", order := none, name := "c", type := "",
     vehicle := none, material := none, qty := none }]

theorem C1_witness :
    ((c1Nodes.map Node.id).Nodup) ∧
    ((buildOk c1Nodes = false → ∀ fuel, renderForest c1Nodes fuel = none) ∧
    (buildOk c1Nodes = true →
      ∀ n ∈ c1Nodes, n ∈ bucketOf c1Nodes (bucketKey n) ∧
        ∀ k, n ∈ bucketOf c1Nodes k → k = bucketKey n) ∧
    (∀ fuel r, renderForest c1Nodes fuel = some r →
      ∀ i, (idsF r).count i ≤ 1) ∧
    (∀ n ∈ c1Nodes, ∀ p, n.parent_id = some p → p ∉ c1Nodes.map Node.id →
      (∀ m ∈ c1Nodes, n ∉ bucketOf c1Nodes m.id) ∧
      (p ≠ "ROOT" → ∀ fuel r, renderForest c1Nodes fuel = some r →
        (idsF r).count n.id = 0))) :=
  ⟨by decide, C1_bucket_partition_and_no_duplicates c1Nodes (by decide)⟩

/-- A node whose `parent_id` is the literal string `"ROOT"`: it resolves
to no id in the list, yet it collides with the sentinel bucket. -/
def rootParentOrphan : Node :=
  { id := "1", parent_id := some "ROOT", order := none, name := "x",
    type := "", vehicle := none, material := none, qty := none }

/-- A node whose `parent_id` is an `Object.prototype` property name:
`childMap["toString"]` is the inherited function, so the truthiness
guard skips the array initialization and `.push` throws a `TypeError`. -/
def protoParentNode : Node :=
  { id := "1", parent_id := some "toString", order := none, name := "x",
    type := "", vehicle := none, material := none, qty := none }

/-- **C1 counterexample.** An orphan whose `parent_id` is the literal
string `"ROOT"` is *not* silently excluded from the rendered tree: the
sentinel-bucket collision renders it as a root.  And an orphan whose
`parent_id` is the `Object.prototype` name `"toString"` is not silently
excluded either: the grouping itself throws, so nothing is rendered. -/
theorem C1_counterexample :
    (rootParentOrphan.parent_id = some "ROOT" ∧
     "ROOT" ∉ [rootParentOrphan].map Node.id ∧
     (renderForest [rootParentOrphan] 2).map idsF = some ["1"]) ∧
    (protoParentNode.parent_id = some "toString" ∧
     "toString" ∉ [protoParentNode].map Node.id ∧
     buildOk [protoParentNode] = false ∧
     renderForest [protoParentNode] 5 = none) := by
  decide

/-- A node whose id is the literal sentinel string `"ROOT"`. -/
def rootIdNode : Node :=
  { id := "ROOT", parent_id := none, order := none, name := "loop",
    type := "", vehicle := none, material := none, qty := none }

theorem renderL_rootIdNode_none : ∀ fuel d,
    renderL [rootIdNode] fuel [rootIdNode] d = none := by
  intro fuel
  induction fuel with
  | zero => intro d; rfl
  | succ f ih =>
    intro d
    have hsb : sortedBucket [rootIdNode] rootIdNode.id = [rootIdNode] := by decide
    have hg : crashingProtoId rootIdNode.id = false := by decide
    simp [renderL, hsb, hg, ih]

/-- A node whose id is an `Object.prototype` member of positive arity:
`childMap["constructor"]` is the inherited `Object` function, which
passes the `children.length > 0` test. -/
def constructorIdNode : Node :=
  { id := "constructor", parent_id := none, order := none, name := "x",
    type := "", vehicle := none, material := none, qty := none }

theorem renderForest_constructorIdNode_none : ∀ fuel,
    renderForest [constructorIdNode] fuel = none := by
  intro fuel
  rw [renderForest, if_pos (by decide : buildOk [constructorIdNode] = true)]
  have hsb : sortedBucket [constructorIdNode] "ROOT" = [constructorIdNode] := by
    decide
  rw [hsb]
  cases fuel with
  | zero => rfl
  | succ f =>
    have hg : crashingProtoId constructorIdNode.id = true := by decide
    simp [renderL, hg]

/-- **C7 counterexample.** Tree building and rendering do crash on some
unique-id node lists with no malformed reference and no cycle: a single
node whose id is the literal string `"ROOT"` makes `createNodeWrapper`
recurse forever (its children lookup hits the sentinel bucket containing
the node itself), and a single node whose id is `"constructor"` makes
`children.forEach` throw a `TypeError` on the inherited
`Object.prototype.constructor`. -/
theorem C7_counterexample :
    ¬ renderTerminates [rootIdNode] ∧ ¬ renderTerminates [constructorIdNode] := by
  constructor
  · rintro ⟨fuel, hf⟩
    rw [renderForest, if_pos (by decide : buildOk [rootIdNode] = true)] at hf
    have hsb : sortedBucket [rootIdNode] "ROOT" = [rootIdNode] := by decide
    rw [hsb, renderL_rootIdNode_none fuel 0] at hf
    simp at hf
  · rintro ⟨fuel, hf⟩
    rw [renderForest_constructorIdNode_none fuel] at hf
    simp at hf

/-- **C7 (amended).** The recursive render terminates without crashing
for every flat node list with unique ids — including lists with
unresolvable parent references and cyclic parent chains — provided the
list avoids the plain-object collisions: no node id equals the literal
sentinel string `"ROOT"`, no node id is an `Object.prototype` member of
positive arity (`constructor`, `hasOwnProperty`, …), and no children
key collides with an `Object.prototype` property name (so the grouping
completes). -/
theorem C7_render_terminates (nodes : List Node)
    (HN : (nodes.map Node.id).Nodup)
    (HR : ∀ n ∈ nodes, n.id ≠ "ROOT")
    (HP : ∀ n ∈ nodes, crashingProtoId n.id = false)
    (HB : buildOk nodes = true) :
    renderTerminates nodes :=
  renderTerminates_of_no_root_id HN HR HP HB

/-- A cyclic two-node list plus an orphan: parent chains that never reach
a root. -/
def c7Nodes : List Node :=
  [{ id := "a", parent_id := some "b", order := none, name := "a", type := "",
     vehicle := none, material := none, qty := none },
   { id := "b", parent_id := some "a", order := none, name := "b", type := "",
     vehicle := none, material := none, qty := none },
   { id := "c", parent_id := some "missing", order := none, name := "c", type := "",
     vehicle := none, material := none, qty := none }]

theorem C7_witness :
    ((c7Nodes.map Node.id).Nodup ∧ (∀ n ∈ c7Nodes, n.id ≠ "ROOT") ∧
     (∀ n ∈ c7Nodes, crashingProtoId n.id = false) ∧
     buildOk c7Nodes = true) ∧
    renderTerminates c7Nodes :=
  ⟨⟨by decide, by decide, by decide, by decide⟩,
   C7_render_terminates c7Nodes (by decide) (by decide) (by decide) (by decide)⟩

/-! ### Application state, DOM surface and network model

The controller's globals (`currentTree`, `currentSelectedId`), the card
elements with their `selected` class, the detail panel, and the tree
caption are modelled as one `UI` record.  Network calls are modelled by
emitting a `Request` trace; the outcome of each call is an explicit
parameter of `Fetch` type (`netFail` = the promise rejected, `httpFail` =
non-2xx response).  Functions that can throw report it in a `Bool`
component, mirroring exception propagation to the calling handler. -/

/-- `String(v)` on the nullable selection id: `String(null)` is the
string `"null"`. -/
def selStr : Option String → String
  | none => "null"
  | some s => s

/-- JavaScript truthiness of a nullable string (`!v` negated): `null` and
the empty string are falsy. -/
def strTruthy : Option String → Bool
  | none => false
  | some s => s ≠ ""

/-- The controller's mutable globals. -/
structure AppState where
  currentTree : Option Tree
  currentSelectedId : Option String
deriving DecidableEq, Repr

/-- The detail-form input values (`detail-id`, `detail-name`,
`detail-type`, `detail-vehicle`, `detail-material`, `detail-qty`). -/
structure Form where
  idv : String
  name : String
  type : String
  vehicle : String
  material : String
  qty : String
deriving DecidableEq, Repr

/-- `updateDetailPanel`: the panel shows its empty state unless a tree is
loaded, the selection is truthy and it resolves (under string-normalized
comparison) to a node; otherwise the inputs are filled from the node
with `v ?? ""`. -/
def computeDetail (st : AppState) : Option Form :=
  match st.currentTree with
  | none => none
  | some t =>
    if strTruthy st.currentSelectedId then
      match t.nodes.find? (fun n => n.id == selStr st.currentSelectedId) with
      | none => none
      | some n => some
        { idv := n.id, name := n.name, type := n.type,
          vehicle := n.vehicle.getD "", material := n.material.getD "",
          qty := match n.qty with | none => "" | some q => q.toStr }
    else none

/-- The current content of the tree container. -/
inductive TreeDom where
  | initial
  | placeholder
  | crash
  | forest (f : DomForest)
deriving DecidableEq, Repr

/-- The visible UI: controller state, tree container content, the card
elements (with their `selected` class), the detail panel, the caption,
and the connector-line properties of the children containers. -/
structure UI where
  state : AppState
  dom : TreeDom
  cards : List Card
  detail : Option Form
  caption : String
  lines : List (String × Option (Rat × Rat))
deriving DecidableEq, Repr

/-- The PATCH body of `applyAndPersistSelectedNode`. -/
structure PatchPayload where
  name : String
  type : String
  vehicle : Option String
  material : Option String
  qty : Option JSNum
deriving DecidableEq, Repr

/-- The network requests the controller can issue. -/
inductive Request where
  | getSubs
  | getState
  | getTree (name : String)
  | uploadExcel
  | patchNode (sub : String) (node : String) (payload : PatchPayload)
  | postState (sub : Option String) (sel : Option String)
deriving DecidableEq, Repr

/-- Outcome of one network call. -/
inductive Fetch (α : Type) where
  | netFail
  | httpFail
  | ok (a : α)
deriving DecidableEq, Repr

/-- The server-held session record `{ sub_name, selected_id }`. -/
structure SessionState where
  sub_name : Option String
  selected_id : Option String
deriving DecidableEq, Repr

/-- `updateSelectionHighlight`: every card's `selected` class is set by
comparing its `dataset.nodeId` against `String(currentSelectedId)`. -/
def updateSelectionHighlight (sel : Option String) (cards : List Card) : List Card :=
  cards.map (fun c => { c with selected := c.nodeId == selStr sel })

/-- `renderSubTree`: clears the container, resets the selection, refreshes
the detail panel; without data it renders the placeholder message,
otherwise it rebuilds the `childMap` index and renders the sorted root
bucket recursively.  `fuel` is the recursion's stack budget: exhausting
it models the stack overflow on cyclic data (`TreeDom.crash`), and the
returned flag reports whether the recursion completed. -/
def renderSubTree (fuel : Nat) (ui : UI) : UI × Bool :=
  let st : AppState := { ui.state with currentSelectedId := none }
  match st.currentTree with
  | none =>
    ({ ui with
        state := st
        detail := computeDetail st
        dom := .placeholder
        cards := [] }, true)
  | some t =>
    match t.nodes with
    | [] =>
      ({ ui with
          state := st
          detail := computeDetail st
          dom := .placeholder
          cards := [] }, true)
    | _ :: _ =>
      match renderForest t.nodes fuel with
      | some f =>
        ({ ui with
            state := st
            detail := computeDetail st
            dom := .forest f
            cards := cardsF f }, true)
      | none =>
        ({ ui with
            state := st
            detail := computeDetail st
            dom := .crash
            cards := [] }, false)

/-- `clearSelection`: null the selection, refresh highlight and detail. -/
def clearSelection (ui : UI) : UI :=
  let st : AppState := { ui.state with currentSelectedId := none }
  { ui with
    state := st
    cards := updateSelectionHighlight none ui.cards
    detail := computeDetail st }

/-- The in-place field writes of `applyLocalChanges` on the selected node
object, lifted to the node list (the first string-id match is the object
the code mutates). -/
def updateFirst (p : Node → Bool) (f : Node → Node) : List Node → List Node
  | [] => []
  | n :: ns => if p n then f n :: ns else n :: updateFirst p f ns

/-- The tree after `applyLocalChanges` wrote the form onto the selected
node: `name`/`type`/`vehicle`/`material` take the raw input strings and
`qty` parses the trimmed input (empty becomes null). -/
def localUpdatedTree (form : Form) (s : String) (t : Tree) : Tree :=
  let write : Node → Node := fun node =>
    { node with
      name := form.name
      type := form.type
      vehicle := some form.vehicle
      material := some form.material
      qty := if form.qty.trim = "" then none
             else some (jsNumber form.qty.trim) }
  { t with nodes := updateFirst (fun n => n.id == s) write t.nodes }

/-- `applyLocalChanges`: local speculative apply.  Guarded by truthiness
of the tree and selection and by the node lookup; writes the form onto
the in-memory node, re-renders, restores the selection, refreshes
highlight and detail.  Issues no network request. -/
def applyLocalChanges (form : Form) (fuel : Nat) (ui : UI) : UI × List Request :=
  match ui.state.currentTree with
  | none => (ui, [])
  | some t =>
    if strTruthy ui.state.currentSelectedId then
      match t.nodes.find? (fun n => n.id == selStr ui.state.currentSelectedId) with
      | none => (ui, [])
      | some node =>
        let t' := localUpdatedTree form (selStr ui.state.currentSelectedId) t
        let keepId := node.id
        let out := renderSubTree fuel
          { ui with state := { ui.state with currentTree := some t' } }
        if out.2 then
          let st2 : AppState := { out.1.state with currentSelectedId := some keepId }
          ({ out.1 with
              state := st2
              cards := updateSelectionHighlight (some keepId) out.1.cards
              detail := computeDetail st2 }, [])
        else (out.1, [])
    else (ui, [])

/-- The PATCH body built by `applyAndPersistSelectedNode`:
`vehicle`/`material` fall back to null on the empty string (`|| null`);
`qty` is null exactly for the empty string and `Number(value)`
otherwise (no trimming, no validation). -/
def mkPayload (form : Form) : PatchPayload :=
  { name := form.name
    type := form.type
    vehicle := if form.vehicle = "" then none else some form.vehicle
    material := if form.material = "" then none else some form.material
    qty := if form.qty = "" then none else some (jsNumber form.qty) }

/-- `applyAndPersistSelectedNode`: issues exactly one PATCH for the
selected node; a failed or non-2xx response throws (flag `true`) without
touching any state; on success the entire client tree is replaced by the
response, the tree re-renders and the selection id is re-established —
with a detail refresh but no highlight refresh. -/
def applyAndPersistSelectedNode (form : Form) (resp : Fetch Tree) (fuel : Nat)
    (ui : UI) : UI × List Request × Bool :=
  match ui.state.currentTree, ui.state.currentSelectedId with
  | none, _ => (ui, [], false)
  | some _, none => (ui, [], false)
  | some t, some s =>
    let req := [Request.patchNode t.sub_name s (mkPayload form)]
    match resp with
    | .netFail => (ui, req, true)
    | .httpFail => (ui, req, true)
    | .ok t' =>
      let out := renderSubTree fuel
        { ui with state := { ui.state with currentTree := some t' } }
      if out.2 then
        let st2 : AppState := { out.1.state with currentSelectedId := some s }
        ({ out.1 with
            state := st2
            detail := computeDetail st2 }, req, false)
      else (out.1, req, true)

/-- The `btn-apply-local` click handler (source line 453): runs the
persisted apply and converts a thrown error into the alert
`"저장 실패. 콘솔을 확인하세요."`.  (The same button is also bound in
`bindDetailPanelEvents` to a second, catch-less invocation of the same
function; that duplicate binding has no catch and shows no alert.) -/
def btnApplyLocalClick (form : Form) (resp : Fetch Tree) (fuel : Nat)
    (ui : UI) : UI × List Request × List String :=
  let out := applyAndPersistSelectedNode form resp fuel ui
  (out.1, out.2.1, if out.2.2 then ["저장 실패. 콘솔을 확인하세요."] else [])

/-- `loadSubTree`: guarded by a truthy selector value; fetches the tree,
replaces `currentTree` and re-renders on success; every failure (network,
non-2xx, or a render crash, all caught by the surrounding `try`) only
sets the failure caption. -/
def loadSubTree (subName : Option String) (resp : Fetch Tree) (fuel : Nat)
    (ui : UI) : UI × List Request :=
  match subName with
  | none => (ui, [])
  | some s =>
    if s = "" then (ui, [])
    else
      let ui0 := { ui with caption := "트리 로딩 중..." }
      let req := [Request.getTree s]
      match resp with
      | .netFail => ({ ui0 with caption := "트리 로딩 실패" }, req)
      | .httpFail => ({ ui0 with caption := "트리 로딩 실패" }, req)
      | .ok t =>
        let ui1 := { ui0 with
          state := { ui0.state with currentTree := some t }
          caption := s ++ " 트리 로드됨" }
        let out := renderSubTree fuel ui1
        if out.2 then (out.1, req)
        else ({ out.1 with caption := "트리 로딩 실패" }, req)

/-- The `change` handler of the dataset selector: clear the selection,
then load the chosen dataset's tree. -/
def subSelectChange (subName : Option String) (resp : Fetch Tree) (fuel : Nat)
    (ui : UI) : UI × List Request :=
  loadSubTree subName resp fuel (clearSelection ui)

/-- `handleExcelFileSelected`: upload, replace the tree with the response,
re-render, then persist `{sub_name, null}` best-effort; failures only set
the failure caption. -/
def handleExcelFileSelected (fileName : String) (resp : Fetch Tree) (fuel : Nat)
    (ui : UI) : UI × List Request :=
  let ui0 := { ui with caption := "엑셀 업로드 중..." }
  let req := [Request.uploadExcel]
  match resp with
  | .netFail => ({ ui0 with caption := "업로드 실패" }, req)
  | .httpFail => ({ ui0 with caption := "업로드 실패" }, req)
  | .ok t =>
    let ui1 := { ui0 with
      state := { ui0.state with currentTree := some t }
      caption := fileName ++ " 트리 불러옴" }
    let out := renderSubTree fuel ui1
    if out.2 then (out.1, req ++ [Request.postState (some t.sub_name) none])
    else ({ out.1 with caption := "업로드 실패" }, req)

/-- `saveSessionState`: fire-and-forget POST of the session record; its
failures are swallowed and nothing else happens. -/
def saveSessionState (subName : Option String) (selectedId : Option String)
    (ui : UI) : UI × List Request :=
  (ui, [Request.postState subName selectedId])

/-- The card click handler: set the selection to the node's id, refresh
highlight and detail, then persist the session best-effort. -/
def cardClick (node : Node) (ui : UI) : UI × List Request :=
  let st : AppState := { ui.state with currentSelectedId := some node.id }
  let ui' :=
    { ui with
      state := st
      cards := updateSelectionHighlight (some node.id) ui.cards
      detail := computeDetail st }
  match ui.state.currentTree with
  | some t => (ui', [Request.postState (some t.sub_name) (some node.id)])
  | none => (ui', [])

/-- `restoreSessionState`: best-effort startup restore.  Fetch the session
record; abort silently on any failure or falsy `sub_name`; otherwise
fetch and render that dataset's tree, and re-establish a truthy
`selected_id` with a detail refresh. -/
def restoreSessionState (stResp : Fetch SessionState) (treeResp : Fetch Tree)
    (fuel : Nat) (ui : UI) : UI × List Request :=
  let req0 := [Request.getState]
  match stResp with
  | .netFail => (ui, req0)
  | .httpFail => (ui, req0)
  | .ok sst =>
    match sst.sub_name with
    | none => (ui, req0)
    | some s =>
      if s = "" then (ui, req0)
      else
        let req := req0 ++ [Request.getTree s]
        match treeResp with
        | .netFail => (ui, req)
        | .httpFail => (ui, req)
        | .ok t =>
          let ui1 := { ui with state := { ui.state with currentTree := some t } }
          let out := renderSubTree fuel ui1
          if out.2 then
            if strTruthy sst.selected_id then
              let st2 : AppState := { out.1.state with
                currentSelectedId := sst.selected_id }
              ({ out.1 with
                  state := st2
                  detail := computeDetail st2 }, req)
            else (out.1, req)
          else (out.1, req)

/-- The top-level statements of the `DOMContentLoaded` handler, in
execution order. -/
inductive InitCall where
  | bindReloadButton
  | bindExpandAllButton
  | loadSubList
  | bindDetailPanelEvents
  | bindClearOnBackgroundClick
  | bindExcelInputOnce
  | bindApplyLocalHandler
  | bindClearSelectionHandler
  | restoreSessionState
deriving DecidableEq, Repr

/-- What runs once at startup, in source order. -/
def initSequence : List InitCall :=
  [.bindReloadButton, .bindExpandAllButton, .loadSubList,
   .bindDetailPanelEvents, .bindClearOnBackgroundClick, .bindExcelInputOnce,
   .bindApplyLocalHandler, .bindClearSelectionHandler, .restoreSessionState]

/-! ### Connector geometry (`adjustTreeLines`) -/

/-- A measured client rect (only the fields the pass reads). -/
structure Rect where
  top : Rat
  height : Rat
deriving DecidableEq, Repr

/-- Geometry oracle: `getBoundingClientRect` of a children container
(keyed by its parent node id) and of a node row (keyed by its node id);
live layout is outside the model, so it is a parameter. -/
structure Geometry where
  containerRect : String → Rect
  rowRect : String → Rect

/-- The ids of the direct rows of a forest. -/
def forestRowIds : DomForest → List String
  | .nil => []
  | .cons (.mk c _ _) ts => c.nodeId :: forestRowIds ts

mutual
/-- The children containers inside a wrapper: the parent card id paired
with its direct child-row ids (a container exists only when children
exist, mirroring `createNodeWrapper`). -/
def containersT : DomTree → List (String × List String)
  | .mk c _ ts =>
    (match ts with
     | .nil => []
     | .cons _ _ => [(c.nodeId, forestRowIds ts)]) ++ containersF ts
/-- All children containers of a forest. -/
def containersF : DomForest → List (String × List String)
  | .nil => []
  | .cons t ts => containersT t ++ containersF ts
end

/-- The line properties of one container: cleared when it has no rows,
otherwise the span from the first row's midpoint to the last row's
midpoint relative to the container top, the height clamped at zero. -/
def lineProps (cont : Rect) (rows : List Rect) : Option (Rat × Rat) :=
  match rows with
  | [] => none
  | r0 :: rest =>
    let rl := (r0 :: rest).getLast (List.cons_ne_nil r0 rest)
    let firstMid := r0.top + r0.height / 2 - cont.top
    let lastMid := rl.top + rl.height / 2 - cont.top
    some (firstMid, max 0 (lastMid - firstMid))

/-- `adjustTreeLines`: recompute the connector-line properties of every
children container in the current DOM from measured geometry.  This is a
pure presentation pass: it touches no model state. -/
def adjustTreeLines (geo : Geometry) (ui : UI) : UI :=
  { ui with lines :=
      match ui.dom with
      | .forest f => (containersF f).map
          (fun ct => (ct.1, lineProps (geo.containerRect ct.1)
            (ct.2.map geo.rowRect)))
      | _ => [] }

/-! ### Characterization lemmas for the operation steps -/

theorem computeDetail_none_sel (o : Option Tree) :
    computeDetail { currentTree := o, currentSelectedId := none } = none := by
  cases o <;> simp [computeDetail, strTruthy]

/-- What `renderSubTree` does to everything except the tree container:
the tree is kept, the selection is nulled, the detail panel is emptied,
caption and lines are untouched. -/
theorem renderSubTree_fst (fuel : Nat) (ui : UI) :
    ((renderSubTree fuel ui).1).state =
      { currentTree := ui.state.currentTree, currentSelectedId := none } ∧
    ((renderSubTree fuel ui).1).detail = none ∧
    ((renderSubTree fuel ui).1).caption = ui.caption ∧
    ((renderSubTree fuel ui).1).lines = ui.lines := by
  rcases ui with ⟨⟨tr, sel⟩, dom, cards, detail, caption, lines⟩
  cases tr with
  | none => simp [renderSubTree, computeDetail_none_sel]
  | some t =>
    rcases t with ⟨sn, nodes⟩
    cases nodes with
    | nil => simp [renderSubTree, computeDetail_none_sel]
    | cons a l =>
      cases hf : renderForest (a :: l) fuel with
      | none => simp [renderSubTree, hf, computeDetail_none_sel]
      | some f => simp [renderSubTree, hf, computeDetail_none_sel]

/-- The rendered output depends only on `currentTree`. -/
theorem renderSubTree_congr (fuel : Nat) {ui1 ui2 : UI}
    (h : ui1.state.currentTree = ui2.state.currentTree) :
    ((renderSubTree fuel ui1).1).state = ((renderSubTree fuel ui2).1).state ∧
    ((renderSubTree fuel ui1).1).dom = ((renderSubTree fuel ui2).1).dom ∧
    ((renderSubTree fuel ui1).1).cards = ((renderSubTree fuel ui2).1).cards := by
  rcases ui1 with ⟨⟨tr1, sel1⟩, dom1, cards1, detail1, caption1, lines1⟩
  rcases ui2 with ⟨⟨tr2, sel2⟩, dom2, cards2, detail2, caption2, lines2⟩
  simp only at h
  subst h
  cases tr1 with
  | none => simp [renderSubTree]
  | some t =>
    rcases t with ⟨sn, nodes⟩
    cases nodes with
    | nil => simp [renderSubTree]
    | cons a l =>
      cases hf : renderForest (a :: l) fuel with
      | none => simp [renderSubTree, hf]
      | some f => simp [renderSubTree, hf]

/-- **C10.** Rendering is read-only on the data model: `renderSubTree`
leaves `currentTree` — node field values and the order of the flat node
list — untouched (the grouping fills fresh bucket arrays and the sort
runs on those buckets); `adjustTreeLines` only recomputes the
connector-line properties and touches neither the model state nor the
rendered cards; and re-rendering the same tree is idempotent on state,
container content and cards. -/
theorem C10_render_readonly_idempotent :
    (∀ fuel ui, ((renderSubTree fuel ui).1).state.currentTree =
      ui.state.currentTree) ∧
    (∀ geo ui, (adjustTreeLines geo ui).state = ui.state ∧
      (adjustTreeLines geo ui).cards = ui.cards ∧
      (adjustTreeLines geo ui).dom = ui.dom ∧
      (adjustTreeLines geo ui).detail = ui.detail) ∧
    (∀ fuel ui,
      ((renderSubTree fuel ((renderSubTree fuel ui).1)).1).state =
        ((renderSubTree fuel ui).1).state ∧
      ((renderSubTree fuel ((renderSubTree fuel ui).1)).1).dom =
        ((renderSubTree fuel ui).1).dom ∧
      ((renderSubTree fuel ((renderSubTree fuel ui).1)).1).cards =
        ((renderSubTree fuel ui).1).cards) := by
  refine ⟨?_, ?_, ?_⟩
  · intro fuel ui
    rw [(renderSubTree_fst fuel ui).1]
  · intro geo ui
    refine ⟨?_, ?_, ?_, ?_⟩ <;> simp [adjustTreeLines]
  · intro fuel ui
    have h : ((renderSubTree fuel ui).1).state.currentTree =
        ui.state.currentTree := by rw [(renderSubTree_fst fuel ui).1]
    have hc := renderSubTree_congr fuel h
    exact ⟨hc.1, hc.2.1, hc.2.2⟩

theorem renderSubTree_sel_none (fuel : Nat) (ui : UI) :
    ((renderSubTree fuel ui).1).state.currentSelectedId = none := by
  rw [(renderSubTree_fst fuel ui).1]

theorem renderSubTree_detail_none (fuel : Nat) (ui : UI) :
    ((renderSubTree fuel ui).1).detail = none :=
  (renderSubTree_fst fuel ui).2.1

theorem renderSubTree_tree (fuel : Nat) (ui : UI) :
    ((renderSubTree fuel ui).1).state.currentTree = ui.state.currentTree := by
  rw [(renderSubTree_fst fuel ui).1]

/-- `loadSubTree` never establishes a selection or a detail view. -/
theorem loadSubTree_sel (subName : Option String) (resp : Fetch Tree)
    (fuel : Nat) (ui : UI)
    (h1 : ui.state.currentSelectedId = none) (h2 : ui.detail = none) :
    ((loadSubTree subName resp fuel ui).1).state.currentSelectedId = none ∧
    ((loadSubTree subName resp fuel ui).1).detail = none := by
  cases subName with
  | none => simpa [loadSubTree] using ⟨h1, h2⟩
  | some s =>
    by_cases hs : s = ""
    · simpa [loadSubTree, hs] using ⟨h1, h2⟩
    · cases resp with
      | netFail => simpa [loadSubTree, hs] using ⟨h1, h2⟩
      | httpFail => simpa [loadSubTree, hs] using ⟨h1, h2⟩
      | ok t =>
        simp only [loadSubTree, if_neg hs]
        split
        · exact ⟨renderSubTree_sel_none _ _, renderSubTree_detail_none _ _⟩
        · exact ⟨renderSubTree_sel_none _ _, renderSubTree_detail_none _ _⟩

/-! ### Claims C6, C2, C3 -/

/-- **C6.** After any tree replacement the previous selection is cleared
rather than carried over: switching datasets (the selector's `change`
handler), every run of `renderSubTree`, and a successful upload all leave
`currentSelectedId` null and the detail panel in its empty state — the
controller never auto-migrates a stale id into the new tree. -/
theorem C6_selection_cleared_on_tree_replacement :
    (∀ subName resp fuel ui,
      ((subSelectChange subName resp fuel ui).1).state.currentSelectedId = none ∧
      ((subSelectChange subName resp fuel ui).1).detail = none) ∧
    (∀ fuel ui,
      ((renderSubTree fuel ui).1).state.currentSelectedId = none ∧
      ((renderSubTree fuel ui).1).detail = none) ∧
    (∀ fileName t fuel ui,
      ((handleExcelFileSelected fileName (.ok t) fuel ui).1).state.currentSelectedId
        = none ∧
      ((handleExcelFileSelected fileName (.ok t) fuel ui).1).detail = none) := by
  refine ⟨?_, ?_, ?_⟩
  · intro subName resp fuel ui
    refine loadSubTree_sel subName resp fuel (clearSelection ui) rfl ?_
    exact computeDetail_none_sel _
  · intro fuel ui
    exact ⟨renderSubTree_sel_none _ _, renderSubTree_detail_none _ _⟩
  · intro fileName t fuel ui
    simp only [handleExcelFileSelected]
    split
    · exact ⟨renderSubTree_sel_none _ _, renderSubTree_detail_none _ _⟩
    · exact ⟨renderSubTree_sel_none _ _, renderSubTree_detail_none _ _⟩

/-- **C2.** Local apply issues no network request; it only rewrites the
selected in-memory node (`localUpdatedTree`), re-renders, and
re-establishes the same selection.  Persisted apply issues exactly one
PATCH carrying the form payload and, on success, replaces the entire
client tree with the server's response.  Only the persisted path ever
reaches the network. -/
theorem C2_local_apply_never_fetches_persisted_apply_one_patch :
    (∀ form fuel ui, (applyLocalChanges form fuel ui).2 = []) ∧
    (∀ form resp fuel ui t s,
      ui.state.currentTree = some t → ui.state.currentSelectedId = some s →
      (applyAndPersistSelectedNode form resp fuel ui).2.1 =
        [Request.patchNode t.sub_name s (mkPayload form)]) ∧
    (∀ form fuel ui t s t',
      ui.state.currentTree = some t → ui.state.currentSelectedId = some s →
      ((applyAndPersistSelectedNode form (.ok t') fuel ui).1).state.currentTree =
        some t') ∧
    (∀ form fuel ui t s node,
      ui.state.currentTree = some t → ui.state.currentSelectedId = some s →
      strTruthy (some s) = true →
      t.nodes.find? (fun n => n.id == s) = some node →
      (renderSubTree fuel { ui with state :=
        { ui.state with currentTree := some (localUpdatedTree form s t) } }).2
          = true →
      ((applyLocalChanges form fuel ui).1).state.currentTree =
        some (localUpdatedTree form s t) ∧
      ((applyLocalChanges form fuel ui).1).state.currentSelectedId =
        some node.id) := by
  refine ⟨?_, ?_, ?_, ?_⟩
  · intro form fuel ui
    rcases hrt : ui.state.currentTree with _ | t
    · simp [applyLocalChanges, hrt]
    · by_cases hs : strTruthy ui.state.currentSelectedId = true
      · rcases hf : t.nodes.find?
            (fun n => n.id == selStr ui.state.currentSelectedId) with _ | node
        · simp [applyLocalChanges, hrt, hs, hf]
        · simp only [applyLocalChanges, hrt, hs, hf, if_true]
          split <;> rfl
      · simp [applyLocalChanges, hrt, hs]
  · intro form resp fuel ui t s h1 h2
    cases resp with
    | netFail => simp [applyAndPersistSelectedNode, h1, h2]
    | httpFail => simp [applyAndPersistSelectedNode, h1, h2]
    | ok t' =>
      simp only [applyAndPersistSelectedNode, h1, h2]
      split <;> rfl
  · intro form fuel ui t s t' h1 h2
    simp only [applyAndPersistSelectedNode, h1, h2]
    split
    · simp [renderSubTree_tree]
    · simp [renderSubTree_tree]
  · intro form fuel ui t s node h1 h2 hs hf hrender
    rcases ui with ⟨⟨tr, sel⟩, dom, cards, detail, caption, lines⟩
    obtain rfl : tr = some t := h1
    obtain rfl : sel = some s := h2
    simp only [applyLocalChanges, selStr, hf, hs, eq_self_iff_true, if_true]
    split
    · exact ⟨by simp [renderSubTree_tree], rfl⟩
    · rename_i hcond
      exact absurd hrender hcond

/-- **C3.** When the persisted-apply PATCH does not succeed — the request
fails or the server answers non-2xx — the handler shows the alert, no
part of the UI state (`currentTree`, `currentSelectedId`, cards, detail,
caption) is changed, and the single PATCH is not reissued. -/
theorem C3_persisted_apply_failure_alerts_and_preserves_state :
    ∀ form resp fuel ui t s,
      ui.state.currentTree = some t → ui.state.currentSelectedId = some s →
      (resp = Fetch.netFail ∨ resp = Fetch.httpFail) →
      (btnApplyLocalClick form resp fuel ui).1 = ui ∧
      (btnApplyLocalClick form resp fuel ui).2.1 =
        [Request.patchNode t.sub_name s (mkPayload form)] ∧
      (btnApplyLocalClick form resp fuel ui).2.2 =
        ["저장 실패. 콘솔을 확인하세요."] := by
  intro form resp fuel ui t s h1 h2 hr
  rcases hr with rfl | rfl <;>
    simp [btnApplyLocalClick, applyAndPersistSelectedNode, h1, h2]

/-! ### Claims C8 and C9 -/

/-- **C8 (amended).** Startup session restore is invoked exactly once;
with a null `sub_name` it issues no tree fetch and leaves the UI
untouched (so no selection is established); any failure of the state
fetch or of the tree fetch aborts silently with the UI unchanged; on the
success path the dataset's tree is fetched and installed and a present
`selected_id` is re-established; but a failure at the render step does
NOT leave the UI in its default state: the fetched tree is already
installed as `currentTree` before the render crashes, and the `catch`
only logs. -/
theorem C8_startup_restore_best_effort :
    (initSequence.count InitCall.restoreSessionState = 1) ∧
    (∀ treeResp fuel ui sel0,
      restoreSessionState (.ok { sub_name := none, selected_id := sel0 })
        treeResp fuel ui = (ui, [Request.getState])) ∧
    (∀ stResp treeResp fuel ui,
      stResp = Fetch.netFail ∨ stResp = Fetch.httpFail →
      restoreSessionState stResp treeResp fuel ui = (ui, [Request.getState])) ∧
    (∀ s sel0 treeResp fuel ui, s ≠ "" →
      (treeResp = Fetch.netFail ∨ treeResp = Fetch.httpFail) →
      restoreSessionState (.ok { sub_name := some s, selected_id := sel0 })
        treeResp fuel ui = (ui, [Request.getState, Request.getTree s])) ∧
    (∀ s i t fuel ui, s ≠ "" → i ≠ "" →
      (renderSubTree fuel
        { ui with state := { ui.state with currentTree := some t } }).2 = true →
      ((restoreSessionState (.ok { sub_name := some s, selected_id := some i })
          (.ok t) fuel ui).1).state.currentTree = some t ∧
      ((restoreSessionState (.ok { sub_name := some s, selected_id := some i })
          (.ok t) fuel ui).1).state.currentSelectedId = some i ∧
      (restoreSessionState (.ok { sub_name := some s, selected_id := some i })
          (.ok t) fuel ui).2 = [Request.getState, Request.getTree s]) ∧
    (∀ s sel0 t fuel ui, s ≠ "" →
      (renderSubTree fuel
        { ui with state := { ui.state with currentTree := some t } }).2 = false →
      ((restoreSessionState (.ok { sub_name := some s, selected_id := sel0 })
          (.ok t) fuel ui).1).state.currentTree = some t ∧
      ((restoreSessionState (.ok { sub_name := some s, selected_id := sel0 })
          (.ok t) fuel ui).1).state.currentSelectedId = none ∧
      (restoreSessionState (.ok { sub_name := some s, selected_id := sel0 })
          (.ok t) fuel ui).2 = [Request.getState, Request.getTree s]) := by
  refine ⟨rfl, ?_, ?_, ?_, ?_, ?_⟩
  · intro treeResp fuel ui sel0
    simp [restoreSessionState]
  · intro stResp treeResp fuel ui hr
    rcases hr with rfl | rfl <;> simp [restoreSessionState]
  · intro s sel0 treeResp fuel ui hs hr
    rcases hr with rfl | rfl <;> simp [restoreSessionState, hs]
  · intro s i t fuel ui hs hi hrender
    rcases ui with ⟨⟨tr, sel⟩, dom, cards, detail, caption, lines⟩
    have hit : strTruthy (some i) = true := by simp [strTruthy, hi]
    simp only [restoreSessionState, if_neg hs, hit, eq_self_iff_true, if_true]
    split
    · refine ⟨?_, rfl, rfl⟩
      simp [renderSubTree_tree]
    · rename_i hcond
      exact absurd hrender hcond
  · intro s sel0 t fuel ui hs hcrash
    rcases ui with ⟨⟨tr, sel⟩, dom, cards, detail, caption, lines⟩
    simp only [restoreSessionState, if_neg hs]
    split
    · rename_i hcond
      exact Bool.noConfusion (hcrash.symm.trans hcond)
    · refine ⟨?_, ?_, rfl⟩
      · simp [renderSubTree_tree]
      · exact renderSubTree_sel_none fuel _

/-- **C9.** In the PATCH body of persisted apply, `qty` is null exactly
when the form value is the empty string, and otherwise it is the numeric
conversion of the form value; editing `qty` to `"5"` sends the number
`5`. -/
theorem C9_qty_null_iff_empty_else_number :
    ∀ form : Form,
      ((mkPayload form).qty = none ↔ form.qty = "") ∧
      (form.qty ≠ "" → (mkPayload form).qty = some (jsNumber form.qty)) ∧
      (form.qty = "5" → (mkPayload form).qty = some (JSNum.int 5)) := by
  intro form
  refine ⟨?_, ?_, ?_⟩
  · by_cases h : form.qty = "" <;> simp [mkPayload, h]
  · intro h
    simp [mkPayload, h]
  · intro h
    have h5 : jsNumber "5" = JSNum.int 5 := by decide
    have hne : ¬ ("5" : String) = "" := by decide
    simp [mkPayload, h, h5, hne]

/-! ### Claim C5 -/

theorem countP_selected_highlight (cards : List Card) (s : Option String) :
    (updateSelectionHighlight s cards).countP (fun c => c.selected) =
      (cards.map Card.nodeId).count (selStr s) := by
  induction cards with
  | nil => rfl
  | cons c cs ih =>
    simp only [updateSelectionHighlight] at ih ⊢
    simp [List.countP_cons, List.count_cons, ih]

theorem renderL_cards_unselected {nodes : List Node} :
    ∀ f, ∀ {cs : List Node} {d : Nat} {r : DomForest},
      renderL nodes f cs d = some r →
      ∀ c ∈ cardsF r, c.selected = false := by
  intro f
  induction f with
  | zero => intro cs d r h; simp [renderL] at h
  | succ g ih =>
    intro cs d r h c hc
    match cs with
    | [] =>
      rw [renderL_nil_some h] at hc
      simp at hc
    | a :: cs' =>
      obtain ⟨ts, rest, hts, hrest, rfl⟩ := renderL_cons_some h
      simp only [cardsF_cons, cardsT_mk, List.mem_cons, List.mem_append] at hc
      rcases hc with (rfl | hc) | hc
      · rfl
      · exact ih hts c hc
      · exact ih hrest c hc

/-- Cards coming out of a fresh render never carry the `selected` class. -/
theorem renderSubTree_cards_unselected (fuel : Nat) (ui : UI) :
    ∀ c ∈ ((renderSubTree fuel ui).1).cards, c.selected = false := by
  rcases ui with ⟨⟨tr, sel⟩, dom, cards, detail, caption, lines⟩
  cases tr with
  | none => simp [renderSubTree]
  | some t =>
    rcases t with ⟨sn, nodes⟩
    cases nodes with
    | nil => simp [renderSubTree]
    | cons a l =>
      cases hf : renderForest (a :: l) fuel with
      | none => simp [renderSubTree, hf]
      | some f =>
        simp only [renderSubTree, hf]
        intro c hc
        exact renderL_cards_unselected fuel (renderForest_some.mp hf).2 c hc

/-- **C5 (amended).** After a render followed by a selection-highlight
refresh, at most one card bears the `selected` marker and a card bears it
exactly when its id matches the normalized selection string (given the
dataset id-uniqueness invariant); but after a successful persisted apply
the selection id is re-established without a highlight refresh, so no
card bears the marker at all. -/
theorem C5_highlight_unique_but_missing_after_persist :
    (∀ (nodes : List Node) (fuel : Nat) (r : DomForest) (sel : Option String),
      (nodes.map Node.id).Nodup → renderForest nodes fuel = some r →
      ((updateSelectionHighlight sel (cardsF r)).countP (fun c => c.selected) ≤ 1 ∧
       ∀ c ∈ updateSelectionHighlight sel (cardsF r),
         c.selected = (c.nodeId == selStr sel))) ∧
    (∀ form t' fuel ui t s,
      ui.state.currentTree = some t → ui.state.currentSelectedId = some s →
      ∀ c ∈ ((applyAndPersistSelectedNode form (.ok t') fuel ui).1).cards,
        c.selected = false) := by
  constructor
  · intro nodes fuel r sel HN hr
    constructor
    · rw [countP_selected_highlight]
      exact renderL_count_le_one HN fuel (renderForest_some.mp hr).2 (selStr sel)
    · intro c hc
      simp only [updateSelectionHighlight, List.mem_map] at hc
      obtain ⟨c0, _, rfl⟩ := hc
      rfl
  · intro form t' fuel ui t s h1 h2
    simp only [applyAndPersistSelectedNode, h1, h2]
    split
    · intro c hc
      exact renderSubTree_cards_unselected fuel _ c hc
    · intro c hc
      exact renderSubTree_cards_unselected fuel _ c hc

/-! ### Concrete scenario: load a dataset, select its node, persist -/

def demoNode : Node :=
  { id := "1", parent_id := none, order := none, name := "Root", type := "ASSY",
    vehicle := none, material := none, qty := none }

def demoTree : Tree := { sub_name := "S", nodes := [demoNode] }

/-- The UI as delivered: nothing loaded, nothing selected. -/
def uiInit : UI :=
  { state := { currentTree := none, currentSelectedId := none }
    dom := .initial
    cards := []
    detail := none
    caption := ""
    lines := [] }

/-- Load the demo dataset, then click its root card. -/
def uiSelected : UI :=
  (cardClick demoNode (loadSubTree (some "S") (.ok demoTree) 9 uiInit).1).1

def demoForm : Form :=
  { idv := "1", name := "Root", type := "ASSY", vehicle := "", material := "",
    qty := "" }

/-- The UI after a successful persisted apply from the selected state. -/
def c5After : UI := (btnApplyLocalClick demoForm (.ok demoTree) 9 uiSelected).1

/-- **C5 counterexample.** After a successful persisted apply the
selection id is set and names a node of the current tree whose card is
present — yet that card does not bear the `selected` marker, because
`applyAndPersistSelectedNode` re-renders and re-sets the id without
calling `updateSelectionHighlight`. -/
theorem C5_counterexample :
    c5After.state.currentSelectedId = some "1" ∧
    c5After.state.currentTree = some demoTree ∧
    "1" ∈ demoTree.nodes.map Node.id ∧
    c5After.cards.map Card.nodeId = ["1"] ∧
    (∀ c ∈ c5After.cards, c.selected = false) := by
  decide

/-- The rendered forest of the C1 demo list. -/
def c1Forest : DomForest := (renderForest c1Nodes 9).getD .nil

theorem C5_witness :
    ((c1Nodes.map Node.id).Nodup ∧ renderForest c1Nodes 9 = some c1Forest ∧
     uiSelected.state.currentTree = some demoTree ∧
     uiSelected.state.currentSelectedId = some "1") ∧
    (((updateSelectionHighlight (some "2") (cardsF c1Forest)).countP
        (fun c => c.selected) ≤ 1 ∧
      ∀ c ∈ updateSelectionHighlight (some "2") (cardsF c1Forest),
        c.selected = (c.nodeId == selStr (some "2"))) ∧
     (∀ c ∈ ((applyAndPersistSelectedNode demoForm (.ok demoTree) 9
         uiSelected).1).cards, c.selected = false)) :=
  ⟨⟨by decide, by decide, by decide, by decide⟩,
   ⟨C5_highlight_unique_but_missing_after_persist.1 c1Nodes 9 c1Forest
      (some "2") (by decide) (by decide),
    C5_highlight_unique_but_missing_after_persist.2 demoForm demoTree 9
      uiSelected demoTree "1" (by decide) (by decide)⟩⟩

theorem C2_witness :
    (uiSelected.state.currentTree = some demoTree ∧
     uiSelected.state.currentSelectedId = some "1") ∧
    ((applyAndPersistSelectedNode demoForm Fetch.httpFail 9 uiSelected).2.1 =
      [Request.patchNode demoTree.sub_name "1" (mkPayload demoForm)] ∧
     ((applyAndPersistSelectedNode demoForm (.ok demoTree) 9
        uiSelected).1).state.currentTree = some demoTree) :=
  ⟨⟨by decide, by decide⟩,
   ⟨C2_local_apply_never_fetches_persisted_apply_one_patch.2.1 demoForm
      Fetch.httpFail 9 uiSelected demoTree "1" (by decide) (by decide),
    C2_local_apply_never_fetches_persisted_apply_one_patch.2.2.1 demoForm 9
      uiSelected demoTree "1" demoTree (by decide) (by decide)⟩⟩

theorem C3_witness :
    (uiSelected.state.currentTree = some demoTree ∧
     uiSelected.state.currentSelectedId = some "1" ∧
     ((Fetch.httpFail : Fetch Tree) = Fetch.netFail ∨
      (Fetch.httpFail : Fetch Tree) = Fetch.httpFail)) ∧
    ((btnApplyLocalClick demoForm Fetch.httpFail 9 uiSelected).1 = uiSelected ∧
     (btnApplyLocalClick demoForm Fetch.httpFail 9 uiSelected).2.1 =
       [Request.patchNode demoTree.sub_name "1" (mkPayload demoForm)] ∧
     (btnApplyLocalClick demoForm Fetch.httpFail 9 uiSelected).2.2 =
       ["저장 실패. 콘솔을 확인하세요."]) :=
  ⟨⟨by decide, by decide, Or.inr rfl⟩,
   C3_persisted_apply_failure_alerts_and_preserves_state demoForm
     Fetch.httpFail 9 uiSelected demoTree "1" (by decide) (by decide)
     (Or.inr rfl)⟩

theorem C8_witness :
    (("S" : String) ≠ "" ∧ ("1" : String) ≠ "" ∧
     (renderSubTree 9 { uiInit with
        state := { uiInit.state with currentTree := some demoTree } }).2
       = true) ∧
    (((restoreSessionState (.ok { sub_name := some "S", selected_id := some "1" })
        (.ok demoTree) 9 uiInit).1).state.currentTree = some demoTree ∧
     ((restoreSessionState (.ok { sub_name := some "S", selected_id := some "1" })
        (.ok demoTree) 9 uiInit).1).state.currentSelectedId = some "1" ∧
     (restoreSessionState (.ok { sub_name := some "S", selected_id := some "1" })
        (.ok demoTree) 9 uiInit).2 =
       [Request.getState, Request.getTree "S"]) :=
  ⟨⟨by decide, by decide, by decide⟩,
   C8_startup_restore_best_effort.2.2.2.2.1 "S" "1" demoTree 9 uiInit
     (by decide) (by decide) (by decide)⟩

/-- A dataset whose single node has the id `"ROOT"`: the render step of
the restore crashes on it. -/
def badTree : Tree := { sub_name := "S", nodes := [rootIdNode] }

/-- **C8 counterexample.** A failure at the render step of the startup
restore does not leave the UI in its default (no dataset) state: with a
fetched tree whose node renders divergently, `currentTree` is already
replaced by the fetched tree when the exception is thrown (and swallowed
by the `catch`); the resulting UI holds the new dataset with a crashed
visual tree, not the default state. -/
theorem C8_counterexample :
    uiInit.state.currentTree = none ∧
    ((restoreSessionState (.ok { sub_name := some "S", selected_id := some "1" })
        (.ok badTree) 9 uiInit).1).state.currentTree = some badTree ∧
    ((restoreSessionState (.ok { sub_name := some "S", selected_id := some "1" })
        (.ok badTree) 9 uiInit).1).state.currentSelectedId = none ∧
    ((restoreSessionState (.ok { sub_name := some "S", selected_id := some "1" })
        (.ok badTree) 9 uiInit).1).dom = TreeDom.crash ∧
    (restoreSessionState (.ok { sub_name := some "S", selected_id := some "1" })
        (.ok badTree) 9 uiInit).2 =
      [Request.getState, Request.getTree "S"] := by
  decide

def demoForm5 : Form := { demoForm with qty := "5" }

theorem C9_witness :
    (demoForm5.qty = "5" ∧ (mkPayload demoForm5).qty = some (JSNum.int 5)) ∧
    (demoForm.qty = "" ∧ (mkPayload demoForm).qty = none) :=
  ⟨⟨rfl, (C9_qty_null_iff_empty_else_number demoForm5).2.2 rfl⟩,
   ⟨rfl, (C9_qty_null_iff_empty_else_number demoForm).1.mpr rfl⟩⟩

end SubApp

